import Mathlib

/-!
Verification of the address-resolve lookup orchestration core of
`src/lib/address_resolve/AddressResolve.h` (namespace `chip::AddressResolve`).

The header gives the data model (`ResolveResult`, `NodeListener`,
`NodeLookupHandleBase`, `NodeLookupRequest`) and the `Resolver` interface.
The pure data model below is a direct shallow embedding of that header.
The orchestration engine itself (the concrete `Resolver` implementation and
`Impl::NodeLookupHandle`) is not part of the reviewed material, so its state
machine is modelled from the specification (states `AwaitingFirst`,
`AwaitingMin`, `Resolved`, `Failed`; two-timer admission; first-received
candidate scoring); each such definition is marked `Modelled from the spec:`.

Machine integers (`uint32_t` millisecond durations, `uint64_t` ids) are
modelled as `Nat`: none of the verified properties performs arithmetic that
could overflow, only storage, comparison and ordering of these values.
Times are absolute milliseconds with the lookup starting at time 0, so the
min/max deadlines coincide with the request's min/max lookup times.
-/

/-- Error codes relevant to this core. `CHIP_ERROR` itself is an external
numeric type; only the identities of the few errors this core produces
matter, so it is embedded as an enumeration. `noError` stands for
`CHIP_NO_ERROR`. -/
inductive ChipError
  | noError
  | invalidState
  | timeout
  deriving DecidableEq, Repr

/-- Transport types of `Transport::Type` (external header); only the
constructor tags are needed. -/
inductive TransportType
  | kUndefined
  | kUdp
  | kTcp
  | kBle
  deriving DecidableEq, Repr

/-- Modelled from the spec: `Transport::PeerAddress` is an external opaque
payload; the only part the reviewed material observes is the transport type
set by the `PeerAddress(Transport::Type)` constructor. -/
structure PeerAddress where
  transportType : TransportType := TransportType.kUndefined
  deriving DecidableEq, Repr

/-- The `PeerAddress(Transport::Type)` constructor. -/
def PeerAddress.ofType (t : TransportType) : PeerAddress := { transportType := t }

/-- Modelled from the spec: `ReliableMessageProtocolConfig` is an external
opaque reliable-messaging configuration blob; its two retransmission
timeouts are carried but never inspected by this core. -/
structure ReliableMessageProtocolConfig where
  idleRetransTimeout : Nat
  activeRetransTimeout : Nat
  deriving DecidableEq, Repr

/-- Modelled from the spec: `GetLocalMRPConfig()` is an external accessor for
the local MRP configuration; this core only copies its value, so any fixed
value models it. -/
def GetLocalMRPConfig : ReliableMessageProtocolConfig :=
  { idleRetransTimeout := 500, activeRetransTimeout := 300 }

/-- `ResolveResult` from the header: a transport address, the MRP
configuration and a TCP-support flag. The field defaults mirror the default
constructor `ResolveResult() : address(Transport::Type::kUdp),
mrpConfig(GetLocalMRPConfig()) {}` together with `bool supportsTcp = false`. -/
structure ResolveResult where
  address : PeerAddress := PeerAddress.ofType TransportType.kUdp
  mrpConfig : ReliableMessageProtocolConfig := GetLocalMRPConfig
  supportsTcp : Bool := false
  deriving DecidableEq, Repr

instance : Inhabited ResolveResult := ⟨{}⟩

/-- Modelled from the spec: `PeerId` (external header `lib/core/PeerId.h`) is
an opaque, equality-comparable node identifier inside a fabric; embedded as a
compressed-fabric-id / node-id pair. -/
structure PeerId where
  compressedFabricId : Nat := 0
  nodeId : Nat := 0
  deriving DecidableEq, Repr

/-- `NodeLookupRequest` from the header: the peer to look up plus the
min/max lookup times in milliseconds, with defaults
`kMinLookupTimeMsDefault = 200` and `kMaxLookupTimeMsDefault = 3000`. -/
structure NodeLookupRequest where
  mPeerId : PeerId := {}
  mMinLookupTimeMs : Nat := 200
  mMaxLookupTimeMs : Nat := 3000
  deriving DecidableEq, Repr

/-- The `NodeLookupRequest(const PeerId &)` constructor. -/
def NodeLookupRequest.ofPeerId (peerId : PeerId) : NodeLookupRequest :=
  { mPeerId := peerId }

/-- `GetPeerId` accessor. -/
def NodeLookupRequest.GetPeerId (r : NodeLookupRequest) : PeerId := r.mPeerId

/-- `GetMinLookupTime` accessor. -/
def NodeLookupRequest.GetMinLookupTime (r : NodeLookupRequest) : Nat :=
  r.mMinLookupTimeMs

/-- `GetMaxLookupTime` accessor. -/
def NodeLookupRequest.GetMaxLookupTime (r : NodeLookupRequest) : Nat :=
  r.mMaxLookupTimeMs

/-- State of the receiver object after `r.SetMinLookupTime(value)`: the
method body is `mMinLookupTimeMs = value; return *this;`, i.e. it assigns
the field of `r` in place (the returned reference aliases `r`; aliasing is
made explicit in `NodeLookupRequest.setMinLookupTimeCall`). -/
def NodeLookupRequest.SetMinLookupTime (r : NodeLookupRequest) (value : Nat) :
    NodeLookupRequest :=
  { r with mMinLookupTimeMs := value }

/-- State of the receiver object after `r.SetMaxLookupTime(value)`: the
method body is `mMaxLookupTimeMs = value; return *this;`. -/
def NodeLookupRequest.SetMaxLookupTime (r : NodeLookupRequest) (value : Nat) :
    NodeLookupRequest :=
  { r with mMaxLookupTimeMs := value }

/-- Object-identity model of the call `store[r].SetMinLookupTime(value)`:
objects are slots of a store, a C++ reference is a slot index. The method
writes the field of slot `r` and returns `*this`, a reference to the very
same slot, so the result is the updated store paired with the unchanged
index `r` (no copy is created). -/
def NodeLookupRequest.setMinLookupTimeCall (store : List NodeLookupRequest)
    (r : Nat) (value : Nat) : List NodeLookupRequest × Nat :=
  (store.set r ((store.getD r {}).SetMinLookupTime value), r)

/-- Object-identity model of the call `store[r].SetMaxLookupTime(value)`;
see `NodeLookupRequest.setMinLookupTimeCall`. -/
def NodeLookupRequest.setMaxLookupTimeCall (store : List NodeLookupRequest)
    (r : Nat) (value : Nat) : List NodeLookupRequest × Nat :=
  (store.set r ((store.getD r {}).SetMaxLookupTime value), r)

/-- Which of the two armed deadlines a timer-expiry event carries. -/
inductive Which
  | minT
  | maxT
  deriving DecidableEq, Repr

/-- Modelled from the spec: the events the engine can receive for one lookup
after a successful `LookupNode` — a candidate `ResolveResult` converted from
a discovery response arriving at absolute time `t`, or the expiry of one of
the two deadline timers at absolute time `t`. The lookup starts at time 0. -/
inductive Ev
  | cand (t : Nat) (c : ResolveResult)
  | timer (t : Nat) (w : Which)
  deriving DecidableEq, Repr

/-- The timestamp of an event. -/
def Ev.time : Ev → Nat
  | .cand t _ => t
  | .timer t _ => t

/-- Events ordered by timestamp; the engine processes events in arrival
order, so a trace is timestamp-sorted. -/
def evLe (a b : Ev) : Prop := a.time ≤ b.time

instance : DecidableRel evLe := fun a b => Nat.decLe a.time b.time

/-- The two terminal listener callbacks of `NodeListener`, tagged with the
absolute time at which the engine invokes them. -/
inductive Callback
  | onNodeAddressResolved (t : Nat) (result : ResolveResult)
  | onNodeAddressResolutionFailed (t : Nat) (reason : ChipError)
  deriving DecidableEq, Repr

/-- Invocation time of a callback. -/
def Callback.cbTime : Callback → Nat
  | .onNodeAddressResolved t _ => t
  | .onNodeAddressResolutionFailed t _ => t

/-- Whether a callback is the failure callback
`OnNodeAddressResolutionFailed`. -/
def Callback.isFailure : Callback → Bool
  | .onNodeAddressResolved _ _ => false
  | .onNodeAddressResolutionFailed _ _ => true

/-- Modelled from the spec: the per-handle lookup state machine of the
missing `Impl::NodeLookupHandle` / concrete `Resolver`. `awaitingFirst` is
the registered state with no candidate yet; `awaitingMin` buffers the
candidates received before the min-deadline in arrival order; `resolved`
and `failed` are the terminal states. -/
inductive LookupState
  | awaitingFirst
  | awaitingMin (cands : List ResolveResult)
  | resolved (r : ResolveResult)
  | failed
  deriving DecidableEq, Repr

/-- Whether a lookup state is terminal (handle unlinked, callback fired). -/
def LookupState.isTerminal : LookupState → Bool
  | .awaitingFirst => false
  | .awaitingMin _ => false
  | .resolved _ => true
  | .failed => true

/-- Modelled from the spec: the default Candidate Scorer keeps the
first-received candidate of the buffered sequence. -/
def defaultScorer (cands : List ResolveResult) : ResolveResult := cands.headI

/-- Modelled from the spec: one transition of the lookup state machine for
a lookup whose min-deadline is `minD` (absolute, lookup started at 0).
A candidate in `awaitingFirst` resolves immediately when the min wait has
already elapsed, otherwise it is buffered; later candidates are appended in
arrival order; the min-timer in `awaitingMin` resolves with the scorer's
selection; the max-timer in `awaitingFirst` fails with `timeout`; all other
events are ignored (a min-timer with no candidate yet does nothing, a
max-timer with candidates present cannot legitimately fire and is ignored
defensively, and terminal states absorb every event since the handle is
already unlinked and its timers cancelled). -/
def step (minD : Nat) (s : LookupState) (e : Ev) : LookupState × List Callback :=
  match s, e with
  | .awaitingFirst, .cand t c =>
    if minD ≤ t then
      (.resolved c, [.onNodeAddressResolved t c])
    else
      (.awaitingMin [c], [])
  | .awaitingMin cs, .cand _ c => (.awaitingMin (cs ++ [c]), [])
  | .awaitingFirst, .timer _ .minT => (.awaitingFirst, [])
  | .awaitingMin cs, .timer t .minT =>
    (.resolved (defaultScorer cs), [.onNodeAddressResolved t (defaultScorer cs)])
  | .awaitingFirst, .timer t .maxT =>
    (.failed, [.onNodeAddressResolutionFailed t ChipError.timeout])
  | .awaitingMin cs, .timer _ .maxT => (.awaitingMin cs, [])
  | .resolved r, _ => (.resolved r, [])
  | .failed, _ => (.failed, [])

/-- Modelled from the spec: processing a whole event trace, one event at a
time on the engine's single execution context, collecting the listener
callbacks in invocation order. -/
def run (minD : Nat) : LookupState → List Ev → LookupState × List Callback
  | s, [] => (s, [])
  | s, e :: rest =>
    ((run minD (step minD s e).1 rest).1,
      (step minD s e).2 ++ (run minD (step minD s e).1 rest).2)

/-- A trace is timer-faithful for deadlines `minD`/`maxD` when every
timer-expiry event it contains fires at its own deadline (the Timer Service
contract). -/
def timerAt (minD maxD : Nat) : Ev → Prop
  | .cand _ _ => True
  | .timer t .minT => t = minD
  | .timer t .maxT => t = maxD

instance : ∀ minD maxD e, Decidable (timerAt minD maxD e) := by
  intro minD maxD e
  cases e with
  | cand t c => exact .isTrue trivial
  | timer t w => cases w <;> exact Nat.decEq _ _

/-- Whether an event is a candidate arriving strictly before time `d`. -/
def earlyCand (d : Nat) : Ev → Prop
  | .cand t _ => t < d
  | .timer _ _ => False

instance : ∀ d e, Decidable (earlyCand d e) := by
  intro d e
  cases e with
  | cand t c => exact Nat.decLt _ _
  | timer t w => exact .isFalse not_false

/-- Whether an event is a candidate arrival at all. -/
def Ev.isCand : Ev → Bool
  | .cand _ _ => true
  | .timer _ _ => false

/-- Modelled from the spec: the engine-level state observable by
`LookupNode` — whether `Init` has completed, and the Lookup Registry as the
list of currently-linked handle identities. -/
structure ResolverState where
  initDone : Bool := false
  registry : List Nat := []
  deriving DecidableEq, Repr

/-- Modelled from the spec: the synchronous part of
`Resolver::LookupNode(request, handle)`. It fails with `InvalidState` — with
no state change and no callback — when the engine has not completed `Init`
or when the handle is already linked in the Registry; otherwise it links the
handle and returns `CHIP_NO_ERROR` (deadline arming and discovery start are
side effects on external collaborators; all listener callbacks are
asynchronous, so the synchronous call itself never invokes one). Returns
the error code, the new engine state and the callbacks invoked during the
call. -/
def Resolver.LookupNode (s : ResolverState) (_request : NodeLookupRequest)
    (handle : Nat) : ChipError × ResolverState × List Callback :=
  if s.initDone = false then
    (ChipError.invalidState, s, [])
  else if handle ∈ s.registry then
    (ChipError.invalidState, s, [])
  else
    (ChipError.noError, { s with registry := s.registry ++ [handle] }, [])

/-- Terminal states absorb every event without emitting a callback. -/
lemma step_terminal (minD : Nat) (s : LookupState) (e : Ev)
    (h : s.isTerminal = true) : step minD s e = (s, []) := by
  cases s with
  | awaitingFirst => simp [LookupState.isTerminal] at h
  | awaitingMin cs => simp [LookupState.isTerminal] at h
  | resolved r =>
    cases e with
    | cand t c => rfl
    | timer t w => cases w <;> rfl
  | failed =>
    cases e with
    | cand t c => rfl
    | timer t w => cases w <;> rfl

/-- A whole trace processed from a terminal state changes nothing and emits
no callback: the handle is already unlinked. -/
lemma run_terminal (minD : Nat) (evs : List Ev) :
    ∀ s : LookupState, s.isTerminal = true → run minD s evs = (s, []) := by
  induction evs with
  | nil => intro s _; rfl
  | cons e rest ih =>
    intro s hs
    simp [run, step_terminal minD s e hs, ih s hs]

/-- From a non-terminal state, one step either stays non-terminal and emits
nothing, or becomes terminal and emits exactly one callback. -/
lemma step_emit (minD : Nat) (s : LookupState) (e : Ev)
    (h : s.isTerminal = false) :
    ((step minD s e).1.isTerminal = false ∧ (step minD s e).2 = []) ∨
    ((step minD s e).1.isTerminal = true ∧ (step minD s e).2.length = 1) := by
  cases s with
  | awaitingFirst =>
    cases e with
    | cand t c =>
      by_cases hmt : minD ≤ t
      · right; simp [step, hmt, LookupState.isTerminal]
      · left; simp [step, hmt, LookupState.isTerminal]
    | timer t w =>
      cases w with
      | minT => left; simp [step, LookupState.isTerminal]
      | maxT => right; simp [step, LookupState.isTerminal]
  | awaitingMin cs =>
    cases e with
    | cand t c => left; simp [step, LookupState.isTerminal]
    | timer t w =>
      cases w with
      | minT => right; simp [step, LookupState.isTerminal]
      | maxT => left; simp [step, LookupState.isTerminal]
  | resolved r => simp [LookupState.isTerminal] at h
  | failed => simp [LookupState.isTerminal] at h

/-- Callback count over any trace from a non-terminal state: one callback
when the trace drives the lookup to a terminal state, none otherwise —
never more than one, whatever the events are. -/
lemma run_count (minD : Nat) :
    ∀ (evs : List Ev) (s : LookupState), s.isTerminal = false →
      (run minD s evs).2.length =
        (if (run minD s evs).1.isTerminal = true then 1 else 0) := by
  intro evs
  induction evs with
  | nil => intro s hs; simp [run, hs]
  | cons e rest ih =>
    intro s hs
    rcases step_emit minD s e hs with ⟨h1, h2⟩ | ⟨h1, h2⟩
    · have hrec := ih (step minD s e).1 h1
      simp [run, h2, hrec]
    · have hr := run_terminal minD rest (step minD s e).1 h1
      simp [run, hr, h1, h2]

/-- Invariant carried through a trace to show the lookup terminates: in
`awaitingFirst` the max-timer expiry is still pending (and either the
min-timer expiry is still pending or every remaining candidate arrives at or
after the min-deadline); in `awaitingMin` the min-timer expiry is still
pending; terminal states need nothing. -/
def liveGuard (minD maxD : Nat) (evs : List Ev) : LookupState → Prop
  | .awaitingFirst =>
    Ev.timer maxD Which.maxT ∈ evs ∧
      (Ev.timer minD Which.minT ∈ evs ∨ ∀ e ∈ evs, ¬ earlyCand minD e)
  | .awaitingMin _ => Ev.timer minD Which.minT ∈ evs
  | .resolved _ => True
  | .failed => True

/-- Liveness of a lookup: a timestamp-sorted, timer-faithful trace that
still delivers the pending timer expiries drives the state machine into a
terminal state. -/
lemma run_reaches_terminal (minD maxD : Nat) :
    ∀ evs : List Ev, List.Pairwise evLe evs →
      (∀ e ∈ evs, timerAt minD maxD e) →
      ∀ s : LookupState, liveGuard minD maxD evs s →
        (run minD s evs).1.isTerminal = true := by
  intro evs
  induction evs with
  | nil =>
    intro _ _ s hg
    cases s with
    | awaitingFirst => simp [liveGuard] at hg
    | awaitingMin cs => simp [liveGuard] at hg
    | resolved r => rfl
    | failed => rfl
  | cons e rest ih =>
    intro hsort htimer s hg
    have hsort' : List.Pairwise evLe rest := (List.pairwise_cons.mp hsort).2
    have hhead : ∀ x ∈ rest, evLe e x := (List.pairwise_cons.mp hsort).1
    have htimer' : ∀ x ∈ rest, timerAt minD maxD x :=
      fun x hx => htimer x (List.mem_cons_of_mem _ hx)
    cases s with
    | resolved r =>
      rw [run_terminal minD (e :: rest) (LookupState.resolved r) rfl]
      rfl
    | failed =>
      rw [run_terminal minD (e :: rest) LookupState.failed rfl]
      rfl

    | awaitingFirst =>
      obtain ⟨hmax, hmin⟩ := hg
      cases e with
      | cand t c =>
        by_cases hmt : minD ≤ t
        · simp only [run, step, if_pos hmt]
          rw [run_terminal minD rest (LookupState.resolved c) rfl]
          rfl
        · simp only [run, step, if_neg hmt]
          apply ih hsort' htimer' (LookupState.awaitingMin [c])
          rcases hmin with hminmem | hlate
          · rcases List.mem_cons.mp hminmem with heq | hmem
            · simp at heq
            · exact hmem
          · have := hlate (Ev.cand t c) (List.mem_cons_self _ _)
            exact absurd (show earlyCand minD (Ev.cand t c) from
              Nat.lt_of_not_le hmt) this
      | timer t w =>
        cases w with
        | minT =>
          have ht : t = minD := htimer _ (List.mem_cons_self _ _)
          simp only [run, step]
          apply ih hsort' htimer' LookupState.awaitingFirst
          refine ⟨?_, Or.inr ?_⟩
          · rcases List.mem_cons.mp hmax with heq | hmem
            · simp at heq
            · exact hmem
          · intro x hx hex
            have hle := hhead x hx
            cases x with
            | cand t' c' =>
              have : t ≤ t' := hle
              have ht' : t' < minD := hex
              omega
            | timer _ _ => exact hex
        | maxT =>
          simp only [run, step]
          rw [run_terminal minD rest LookupState.failed rfl]
          rfl
    | awaitingMin cs =>
      cases e with
      | cand t c =>
        simp only [run, step]
        apply ih hsort' htimer' (LookupState.awaitingMin (cs ++ [c]))
        rcases List.mem_cons.mp hg with heq | hmem
        · simp at heq
        · exact hmem
      | timer t w =>
        cases w with
        | minT =>
          simp only [run, step]
          rw [run_terminal minD rest (LookupState.resolved (defaultScorer cs)) rfl]
          rfl
        | maxT =>
          simp only [run, step]
          apply ih hsort' htimer' (LookupState.awaitingMin cs)
          rcases List.mem_cons.mp hg with heq | hmem
          · simp at heq
          · exact hmem

/-- Any callback a single timer-faithful step emits is invoked at or after
the min-deadline (given `minD ≤ maxD`): an immediate resolution requires the
min wait to have elapsed, a min-timer resolution happens at the min-deadline
and a timeout happens at the max-deadline. -/
lemma step_cb_time (minD maxD : Nat) (hle : minD ≤ maxD) (s : LookupState)
    (e : Ev) (hte : timerAt minD maxD e) :
    ∀ cb ∈ (step minD s e).2, minD ≤ cb.cbTime := by
  intro cb hcb
  cases s with
  | awaitingFirst =>
    cases e with
    | cand t c =>
      by_cases hmt : minD ≤ t
      · simp only [step, if_pos hmt, List.mem_singleton] at hcb
        rw [hcb]
        exact hmt
      · simp [step, if_neg hmt] at hcb
    | timer t w =>
      cases w with
      | minT => simp [step] at hcb
      | maxT =>
        have ht : t = maxD := hte
        simp only [step, List.mem_singleton] at hcb
        rw [hcb, ht]
        exact hle
  | awaitingMin cs =>
    cases e with
    | cand t c => simp [step] at hcb
    | timer t w =>
      cases w with
      | minT =>
        have ht : t = minD := hte
        simp only [step, List.mem_singleton] at hcb
        rw [hcb, ht]
        exact Nat.le_refl minD
      | maxT => simp [step] at hcb
  | resolved r =>
    rw [step_terminal minD (LookupState.resolved r) e rfl] at hcb
    simp at hcb
  | failed =>
    rw [step_terminal minD LookupState.failed e rfl] at hcb
    simp at hcb

/-- Over a whole timer-faithful trace, every callback the engine invokes is
invoked at or after the min-deadline, from any state. -/
lemma run_cb_time (minD maxD : Nat) (hle : minD ≤ maxD) :
    ∀ evs : List Ev, (∀ e ∈ evs, timerAt minD maxD e) →
      ∀ (s : LookupState), ∀ cb ∈ (run minD s evs).2, minD ≤ cb.cbTime := by
  intro evs
  induction evs with
  | nil => intro _ s cb hcb; simp [run] at hcb
  | cons e rest ih =>
    intro htimer s cb hcb
    have htimer' : ∀ x ∈ rest, timerAt minD maxD x :=
      fun x hx => htimer x (List.mem_cons_of_mem _ hx)
    simp only [run, List.mem_append] at hcb
    rcases hcb with hstep | hrest
    · exact step_cb_time minD maxD hle s e (htimer e (List.mem_cons_self _ _)) cb hstep
    · exact ih htimer' _ cb hrest

/-- A timer-faithful trace with no candidate arrival that delivers the
max-timer expiry runs the lookup into `failed`, invoking exactly the failure
callback, with reason `timeout`, at exactly the max-deadline. -/
lemma no_cand_run (minD maxD : Nat) :
    ∀ evs : List Ev, (∀ e ∈ evs, timerAt minD maxD e) →
      (∀ e ∈ evs, e.isCand = false) →
      Ev.timer maxD Which.maxT ∈ evs →
      run minD LookupState.awaitingFirst evs =
        (LookupState.failed,
          [Callback.onNodeAddressResolutionFailed maxD ChipError.timeout]) := by
  intro evs
  induction evs with
  | nil => intro _ _ hmem; simp at hmem
  | cons e rest ih =>
    intro htimer hnc hmem
    have htimer' : ∀ x ∈ rest, timerAt minD maxD x :=
      fun x hx => htimer x (List.mem_cons_of_mem _ hx)
    have hnc' : ∀ x ∈ rest, x.isCand = false :=
      fun x hx => hnc x (List.mem_cons_of_mem _ hx)
    cases e with
    | cand t c =>
      have := hnc _ (List.mem_cons_self _ _)
      simp [Ev.isCand] at this
    | timer t w =>
      cases w with
      | minT =>
        have hmem' : Ev.timer maxD Which.maxT ∈ rest := by
          rcases List.mem_cons.mp hmem with heq | h
          · simp at heq
          · exact h
        simp only [run, step]
        rw [ih htimer' hnc' hmem']
        rfl
      | maxT =>
        have ht : t = maxD := htimer _ (List.mem_cons_self _ _)
        subst ht
        simp only [run, step]
        rw [run_terminal minD rest LookupState.failed rfl]
        rfl

/-- Once a candidate has arrived, the failure callback can never fire: over
a timestamp-sorted, timer-faithful trace, if the state is `awaitingFirst`
only while a candidate arriving strictly before the max-deadline is still
pending, every callback the engine invokes is a success callback. -/
lemma no_failure_aux (minD maxD : Nat) :
    ∀ evs : List Ev, List.Pairwise evLe evs →
      (∀ e ∈ evs, timerAt minD maxD e) →
      ∀ s : LookupState,
        (s = LookupState.awaitingFirst → ∃ e ∈ evs, earlyCand maxD e) →
        ∀ cb ∈ (run minD s evs).2, cb.isFailure = false := by
  intro evs
  induction evs with
  | nil => intro _ _ s _ cb hcb; simp [run] at hcb
  | cons e rest ih =>
    intro hsort htimer s hJ cb hcb
    have hsort' : List.Pairwise evLe rest := (List.pairwise_cons.mp hsort).2
    have hhead : ∀ x ∈ rest, evLe e x := (List.pairwise_cons.mp hsort).1
    have htimer' : ∀ x ∈ rest, timerAt minD maxD x :=
      fun x hx => htimer x (List.mem_cons_of_mem _ hx)
    cases s with
    | resolved r =>
      rw [run_terminal minD (e :: rest) (LookupState.resolved r) rfl] at hcb
      simp at hcb
    | failed =>
      rw [run_terminal minD (e :: rest) LookupState.failed rfl] at hcb
      simp at hcb
    | awaitingFirst =>
      have hJ' := hJ rfl
      cases e with
      | cand t c =>
        by_cases hmt : minD ≤ t
        · simp only [run, step, if_pos hmt, List.mem_append] at hcb
          rcases hcb with h1 | h2
          · simp only [List.mem_singleton] at h1
            rw [h1]
            rfl
          · rw [run_terminal minD rest (LookupState.resolved c) rfl] at h2
            simp at h2
        · simp only [run, step, if_neg hmt, List.mem_append] at hcb
          rcases hcb with h1 | h2
          · simp at h1
          · exact ih hsort' htimer' (LookupState.awaitingMin [c])
              (fun hh => absurd hh (by simp)) cb h2
      | timer t w =>
        cases w with
        | minT =>
          simp only [run, step, List.mem_append] at hcb
          rcases hcb with h1 | h2
          · simp at h1
          · apply ih hsort' htimer' LookupState.awaitingFirst ?_ cb h2
            intro _
            obtain ⟨x, hx, hex⟩ := hJ'
            rcases List.mem_cons.mp hx with hxe | hxr
            · rw [hxe] at hex
              simp [earlyCand] at hex
            · exact ⟨x, hxr, hex⟩
        | maxT =>
          have ht : t = maxD := htimer _ (List.mem_cons_self _ _)
          obtain ⟨x, hx, hex⟩ := hJ'
          rcases List.mem_cons.mp hx with hxe | hxr
          · rw [hxe] at hex
            simp [earlyCand] at hex
          · have hle := hhead x hxr
            cases x with
            | cand t' c' =>
              have h1 : t ≤ t' := hle
              have h2 : t' < maxD := hex
              omega
            | timer _ _ => simp [earlyCand] at hex
    | awaitingMin cs =>
      cases e with
      | cand t c =>
        simp only [run, step, List.mem_append] at hcb
        rcases hcb with h1 | h2
        · simp at h1
        · exact ih hsort' htimer' (LookupState.awaitingMin (cs ++ [c]))
            (fun hh => absurd hh (by simp)) cb h2
      | timer t w =>
        cases w with
        | minT =>
          simp only [run, step, List.mem_append] at hcb
          rcases hcb with h1 | h2
          · simp only [List.mem_singleton] at h1
            rw [h1]
            rfl
          · rw [run_terminal minD rest (LookupState.resolved (defaultScorer cs)) rfl] at h2
            simp at h2
        | maxT =>
          simp only [run, step, List.mem_append] at hcb
          rcases hcb with h1 | h2
          · simp at h1
          · exact ih hsort' htimer' (LookupState.awaitingMin cs)
              (fun hh => absurd hh (by simp)) cb h2

/-- C1: for every lookup started by a successful `LookupNode` call, across
every possible sequence of zero or more candidate arrivals and timer
expiries (delivered in timestamp order, with the Timer Service firing each
armed deadline at its time), exactly one of the listener callbacks
`OnNodeAddressResolved` / `OnNodeAddressResolutionFailed` is invoked for
that lookup, and it is invoked exactly once. -/
theorem lookup_exactly_once_callback (minD maxD : Nat) (evs : List Ev)
    (hle : minD ≤ maxD)
    (hsort : List.Pairwise evLe evs)
    (htimer : ∀ e ∈ evs, timerAt minD maxD e)
    (hminT : Ev.timer minD Which.minT ∈ evs)
    (hmaxT : Ev.timer maxD Which.maxT ∈ evs) :
    (run minD LookupState.awaitingFirst evs).2.length = 1 := by
  have hterm := run_reaches_terminal minD maxD evs hsort htimer
    LookupState.awaitingFirst ⟨hmaxT, Or.inl hminT⟩
  have hcount := run_count minD evs LookupState.awaitingFirst rfl
  rw [hterm] at hcount
  simpa using hcount

/-- Witness for `lookup_exactly_once_callback`: a candidate at t=50 followed
by the two timer expiries of a min=200/max=3000 request yields exactly one
callback. -/
theorem lookup_exactly_once_callback_witness :
    (200 ≤ 3000 ∧
      List.Pairwise evLe
        [Ev.cand 50 {}, Ev.timer 200 Which.minT, Ev.timer 3000 Which.maxT] ∧
      (∀ e ∈ [Ev.cand 50 {}, Ev.timer 200 Which.minT,
          Ev.timer 3000 Which.maxT], timerAt 200 3000 e) ∧
      Ev.timer 200 Which.minT ∈
        [Ev.cand 50 {}, Ev.timer 200 Which.minT, Ev.timer 3000 Which.maxT] ∧
      Ev.timer 3000 Which.maxT ∈
        [Ev.cand 50 {}, Ev.timer 200 Which.minT, Ev.timer 3000 Which.maxT]) ∧
    (run 200 LookupState.awaitingFirst
        [Ev.cand 50 {}, Ev.timer 200 Which.minT,
          Ev.timer 3000 Which.maxT]).2.length = 1 :=
  ⟨⟨by decide, by decide, by decide, by decide, by decide⟩,
    lookup_exactly_once_callback 200 3000
      [Ev.cand 50 {}, Ev.timer 200 Which.minT, Ev.timer 3000 Which.maxT]
      (by decide) (by decide) (by decide) (by decide) (by decide)⟩

/-- C2: for every lookup with non-zero minimum lookup time, if candidates
arrive strictly before the min-deadline then no terminal callback fires
before the min-deadline (every invoked callback carries a time at or after
it); and for a minimum lookup time of 0, the first candidate arrival
immediately triggers `OnNodeAddressResolved`. -/
theorem min_wait_respected :
    (∀ (minD maxD : Nat) (evs : List Ev), 0 < minD → minD ≤ maxD →
        (∀ e ∈ evs, timerAt minD maxD e) →
        (∃ e ∈ evs, earlyCand minD e) →
        ∀ cb ∈ (run minD LookupState.awaitingFirst evs).2, minD ≤ cb.cbTime) ∧
    (∀ (t : Nat) (c : ResolveResult),
        step 0 LookupState.awaitingFirst (Ev.cand t c) =
          (LookupState.resolved c, [Callback.onNodeAddressResolved t c])) := by
  constructor
  · intro minD maxD evs _ hle htimer _ cb hcb
    exact run_cb_time minD maxD hle evs htimer LookupState.awaitingFirst cb hcb
  · intro t c
    simp [step, Nat.zero_le]

/-- Witness for `min_wait_respected`: candidates at t=50 and t=150 of a
min=200/max=3000 request; every callback of that run fires at or after
t=200. -/
theorem min_wait_respected_witness :
    (0 < 200 ∧ 200 ≤ 3000 ∧
      (∀ e ∈ [Ev.cand 50 {}, Ev.cand 150 {}, Ev.timer 200 Which.minT,
          Ev.timer 3000 Which.maxT], timerAt 200 3000 e) ∧
      (∃ e ∈ [Ev.cand 50 {}, Ev.cand 150 {}, Ev.timer 200 Which.minT,
          Ev.timer 3000 Which.maxT], earlyCand 200 e)) ∧
    (∀ cb ∈ (run 200 LookupState.awaitingFirst
        [Ev.cand 50 {}, Ev.cand 150 {}, Ev.timer 200 Which.minT,
          Ev.timer 3000 Which.maxT]).2, 200 ≤ cb.cbTime) :=
  ⟨⟨by decide, by decide, by decide, by decide⟩,
    min_wait_respected.1 200 3000
      [Ev.cand 50 {}, Ev.cand 150 {}, Ev.timer 200 Which.minT,
        Ev.timer 3000 Which.maxT]
      (by decide) (by decide) (by decide) (by decide)⟩

/-- C3: if no candidate ever arrives, the failure callback fires with error
`timeout` exactly at (not before) the max-deadline, and it is the only
callback; if at least one candidate arrives strictly before the
max-deadline, the failure callback never fires for that lookup. -/
theorem max_wait_bound :
    (∀ (minD maxD : Nat) (evs : List Ev),
        (∀ e ∈ evs, timerAt minD maxD e) →
        (∀ e ∈ evs, e.isCand = false) →
        Ev.timer maxD Which.maxT ∈ evs →
        (run minD LookupState.awaitingFirst evs).2 =
          [Callback.onNodeAddressResolutionFailed maxD ChipError.timeout]) ∧
    (∀ (minD maxD : Nat) (evs : List Ev), List.Pairwise evLe evs →
        (∀ e ∈ evs, timerAt minD maxD e) →
        (∃ e ∈ evs, earlyCand maxD e) →
        ∀ cb ∈ (run minD LookupState.awaitingFirst evs).2,
          cb.isFailure = false) := by
  constructor
  · intro minD maxD evs h1 h2 h3
    rw [no_cand_run minD maxD evs h1 h2 h3]
  · intro minD maxD evs hsort htimer hex cb hcb
    exact no_failure_aux minD maxD evs hsort htimer LookupState.awaitingFirst
      (fun _ => hex) cb hcb

/-- Witness for `max_wait_bound`: with only the two timer expiries of a
min=200/max=3000 request and no candidate, the run invokes exactly the
timeout failure at t=3000. -/
theorem max_wait_bound_witness :
    ((∀ e ∈ [Ev.timer 200 Which.minT, Ev.timer 3000 Which.maxT],
        timerAt 200 3000 e) ∧
      (∀ e ∈ [Ev.timer 200 Which.minT, Ev.timer 3000 Which.maxT],
        e.isCand = false) ∧
      Ev.timer 3000 Which.maxT ∈
        [Ev.timer 200 Which.minT, Ev.timer 3000 Which.maxT]) ∧
    (run 200 LookupState.awaitingFirst
        [Ev.timer 200 Which.minT, Ev.timer 3000 Which.maxT]).2 =
      [Callback.onNodeAddressResolutionFailed 3000 ChipError.timeout] :=
  ⟨⟨by decide, by decide, by decide⟩,
    max_wait_bound.1 200 3000
      [Ev.timer 200 Which.minT, Ev.timer 3000 Which.maxT]
      (by decide) (by decide) (by decide)⟩

/-- C7: when multiple candidates are buffered at the min-deadline, the
default Candidate Scorer selects the first-received candidate, the buffer
preserves arrival order, and the selection depends only on the buffered
candidate sequence, not on the firing time (the model is a pure function of
the event sequence, so two runs over the same sequence are identical). -/
theorem candidate_selection_first_received :
    (∀ (minD t t' : Nat) (cs : List ResolveResult),
        (step minD (LookupState.awaitingMin cs) (Ev.timer t Which.minT)).1 =
          (step minD (LookupState.awaitingMin cs) (Ev.timer t' Which.minT)).1) ∧
    (∀ (minD t : Nat) (cs : List ResolveResult) (c : ResolveResult),
        step minD (LookupState.awaitingMin cs) (Ev.cand t c) =
          (LookupState.awaitingMin (cs ++ [c]), [])) ∧
    (∀ (minD maxD t1 t2 : Nat) (c1 c2 : ResolveResult),
        t1 ≤ t2 → t2 < minD → minD ≤ maxD →
        run minD LookupState.awaitingFirst
            [Ev.cand t1 c1, Ev.cand t2 c2, Ev.timer minD Which.minT,
              Ev.timer maxD Which.maxT] =
          (LookupState.resolved c1,
            [Callback.onNodeAddressResolved minD c1])) := by
  refine ⟨fun minD t t' cs => rfl, fun minD t cs c => rfl, ?_⟩
  intro minD maxD t1 t2 c1 c2 h12 h2m _
  have h1 : ¬ minD ≤ t1 := by omega
  have h2 : ¬ minD ≤ t2 := by omega
  simp [run, step, h1, h2, defaultScorer]

/-- Witness for `candidate_selection_first_received`: candidates arriving at
t=50 and t=150 for a min=200/max=3000 request; success fires at t=200 with
the t=50 candidate. The two candidate payloads differ in `supportsTcp` so
the selection is observable. -/
theorem candidate_selection_first_received_witness :
    (50 ≤ 150 ∧ 150 < 200 ∧ 200 ≤ 3000) ∧
    run 200 LookupState.awaitingFirst
        [Ev.cand 50 {}, Ev.cand 150 { supportsTcp := true },
          Ev.timer 200 Which.minT, Ev.timer 3000 Which.maxT] =
      (LookupState.resolved {},
        [Callback.onNodeAddressResolved 200 {}]) :=
  ⟨⟨by decide, by decide, by decide⟩,
    candidate_selection_first_received.2.2 200 3000 50 150 {}
      { supportsTcp := true } (by decide) (by decide) (by decide)⟩

/-- C4 counterexample: calling `SetMinLookupTime(5)` on a default request
stored in slot 0 returns a reference to the very same slot 0 (not a distinct
object) and leaves the original object changed, contradicting the claim that
the setter returns a mutated copy and leaves the original unchanged. -/
theorem setMinLookupTime_no_copy_counterexample :
    (NodeLookupRequest.setMinLookupTimeCall [{}] 0 5).2 = 0 ∧
    (NodeLookupRequest.setMinLookupTimeCall [{}] 0 5).1.getD 0 {} ≠
      ({} : NodeLookupRequest) := by
  decide

/-- C4 amended: `SetMinLookupTime(v)` / `SetMaxLookupTime(v)` mutate the
receiver in place — the returned reference is the receiver itself, the
receiver's targeted field becomes `v` while its other fields are unchanged,
and every other object in the store is untouched. -/
theorem setLookupTime_mutates_receiver (store : List NodeLookupRequest)
    (r v : Nat) (h : r < store.length) :
    ((NodeLookupRequest.setMinLookupTimeCall store r v).2 = r ∧
      ((NodeLookupRequest.setMinLookupTimeCall store r v).1.getD r
        {}).GetMinLookupTime = v ∧
      ((NodeLookupRequest.setMinLookupTimeCall store r v).1.getD r
        {}).GetPeerId = (store.getD r {}).GetPeerId ∧
      ((NodeLookupRequest.setMinLookupTimeCall store r v).1.getD r
        {}).GetMaxLookupTime = (store.getD r {}).GetMaxLookupTime ∧
      (∀ j, j ≠ r → (NodeLookupRequest.setMinLookupTimeCall store r v).1.getD
        j {} = store.getD j {})) ∧
    ((NodeLookupRequest.setMaxLookupTimeCall store r v).2 = r ∧
      ((NodeLookupRequest.setMaxLookupTimeCall store r v).1.getD r
        {}).GetMaxLookupTime = v ∧
      ((NodeLookupRequest.setMaxLookupTimeCall store r v).1.getD r
        {}).GetPeerId = (store.getD r {}).GetPeerId ∧
      ((NodeLookupRequest.setMaxLookupTimeCall store r v).1.getD r
        {}).GetMinLookupTime = (store.getD r {}).GetMinLookupTime ∧
      (∀ j, j ≠ r → (NodeLookupRequest.setMaxLookupTimeCall store r v).1.getD
        j {} = store.getD j {})) := by
  have hset : ∀ (x : NodeLookupRequest), (store.set r x).getD r {} = x := by
    intro x
    simp [List.getD_eq_getElem?_getD, List.getElem?_set_self, h]
  have hother : ∀ (x : NodeLookupRequest) (j : Nat), j ≠ r →
      (store.set r x).getD j {} = store.getD j {} := by
    intro x j hj
    simp [List.getD_eq_getElem?_getD, List.getElem?_set_ne (Ne.symm hj)]
  refine ⟨⟨rfl, ?_, ?_, ?_, ?_⟩, ⟨rfl, ?_, ?_, ?_, ?_⟩⟩
  · rw [NodeLookupRequest.setMinLookupTimeCall, hset]; rfl
  · rw [NodeLookupRequest.setMinLookupTimeCall, hset]; rfl
  · rw [NodeLookupRequest.setMinLookupTimeCall, hset]; rfl
  · intro j hj
    rw [NodeLookupRequest.setMinLookupTimeCall]
    exact hother _ j hj
  · rw [NodeLookupRequest.setMaxLookupTimeCall, hset]; rfl
  · rw [NodeLookupRequest.setMaxLookupTimeCall, hset]; rfl
  · rw [NodeLookupRequest.setMaxLookupTimeCall, hset]; rfl
  · intro j hj
    rw [NodeLookupRequest.setMaxLookupTimeCall]
    exact hother _ j hj

/-- Witness for `setLookupTime_mutates_receiver` at a one-slot store. -/
theorem setLookupTime_mutates_receiver_witness :
    0 < ([({} : NodeLookupRequest)]).length ∧
    ((NodeLookupRequest.setMinLookupTimeCall [{}] 0 7).2 = 0 ∧
      ((NodeLookupRequest.setMinLookupTimeCall [{}] 0 7).1.getD 0
        {}).GetMinLookupTime = 7) :=
  ⟨by decide,
    ⟨(setLookupTime_mutates_receiver [{}] 0 7 (by decide)).1.1,
      (setLookupTime_mutates_receiver [{}] 0 7 (by decide)).1.2.1⟩⟩

/-- C5: a `NodeLookupRequest` built by either constructor, with neither
setter called, reports a minimum lookup time of 200 ms and a maximum lookup
time of 3000 ms. -/
theorem nodeLookupRequest_default_lookup_times (p : PeerId) :
    ({} : NodeLookupRequest).GetMinLookupTime = 200 ∧
    ({} : NodeLookupRequest).GetMaxLookupTime = 3000 ∧
    (NodeLookupRequest.ofPeerId p).GetMinLookupTime = 200 ∧
    (NodeLookupRequest.ofPeerId p).GetMaxLookupTime = 3000 :=
  ⟨rfl, rfl, rfl, rfl⟩

/-- C6: a `LookupNode` call rejected synchronously — engine not yet through
`Init`, or handle already linked — returns the `InvalidState` error, leaves
the whole engine/registry state unchanged, and invokes no listener callback
(and since the handle stays unlinked and the state is identical, no later
event can fire a callback on account of the rejected call). -/
theorem lookupNode_rejected_no_effect (s : ResolverState)
    (req : NodeLookupRequest) (handle : Nat)
    (hrej : s.initDone = false ∨ handle ∈ s.registry) :
    (Resolver.LookupNode s req handle).1 = ChipError.invalidState ∧
    (Resolver.LookupNode s req handle).2.1 = s ∧
    (Resolver.LookupNode s req handle).2.2 = [] := by
  rcases hrej with h | h
  · simp [Resolver.LookupNode, h]
  · by_cases hI : s.initDone = false
    · simp [Resolver.LookupNode, hI]
    · simp [Resolver.LookupNode, hI, h]

/-- Witness for `lookupNode_rejected_no_effect`: calling `LookupNode` on a
fresh engine (before `Init`) is rejected with no state change. -/
theorem lookupNode_rejected_no_effect_witness :
    (({} : ResolverState).initDone = false ∨ 0 ∈ ({} : ResolverState).registry) ∧
    ((Resolver.LookupNode {} {} 0).1 = ChipError.invalidState ∧
      (Resolver.LookupNode {} {} 0).2.1 = ({} : ResolverState) ∧
      (Resolver.LookupNode {} {} 0).2.2 = []) :=
  ⟨by decide, lookupNode_rejected_no_effect {} {} 0 (by decide)⟩

/-- C9: a default-constructed `ResolveResult` has a UDP transport address,
`supportsTcp = false`, and the local MRP configuration. -/
theorem resolveResult_default_ctor :
    ({} : ResolveResult).address.transportType = TransportType.kUdp ∧
    ({} : ResolveResult).supportsTcp = false ∧
    ({} : ResolveResult).mrpConfig = GetLocalMRPConfig :=
  ⟨rfl, rfl, rfl⟩

/-- C10: `SetMinLookupTime` changes only the minimum lookup time and
`SetMaxLookupTime` only the maximum: the peer id and the respective other
lookup-time field keep their values. -/
theorem setLookupTime_frame_effect (r : NodeLookupRequest) (v w : Nat) :
    ((r.SetMinLookupTime v).GetPeerId = r.GetPeerId ∧
      (r.SetMinLookupTime v).GetMaxLookupTime = r.GetMaxLookupTime) ∧
    ((r.SetMaxLookupTime w).GetPeerId = r.GetPeerId ∧
      (r.SetMaxLookupTime w).GetMinLookupTime = r.GetMinLookupTime) :=
  ⟨⟨rfl, rfl⟩, ⟨rfl, rfl⟩⟩
